import Mathlib

/-!
# Verification of the Xyence/xyn-seed execution engine core

Shallow embedding of the Postgres-backed workflow engine's core operations:

* `src/core/worker.py` — the claim protocol (`claim_run`), lease renewal
  (`renew_lease`, `periodic_lease_renewal`);
* `src/core/blueprints/runner.py` — the run context (`assert_ownership`,
  `RunContext.step`, `spawn_run`, `wait_runs`) and the terminal CAS
  finalization in `execute_run`;
* `src/core/advisory_locks.py` — `hash_lock_key` over SHA-256.

Database tables are lists of records; timestamps are integers (absolute
instants); SQL `NULL` is `Option.none`; JSON documents are opaque strings.
A single SQL statement is a pure function from the table to the updated
table plus its result rows.
-/

namespace XynSeed

/-- Opaque JSON document (`inputs`, `outputs`, `error` columns). -/
abbrev Doc := String

/-- `RunStatus` enum from `src/core/models.py` (CREATED is legacy). -/
inductive RunStatus
  | QUEUED
  | CREATED
  | RUNNING
  | COMPLETED
  | FAILED
  | CANCELLED
deriving DecidableEq, Repr

/-- `StepStatus` enum from `src/core/models.py`. -/
inductive StepStatus
  | CREATED
  | RUNNING
  | COMPLETED
  | FAILED
  | SKIPPED
deriving DecidableEq, Repr

/-- A row of the `runs` table (`class Run` in `src/core/models.py`).
Identifiers are `Nat` (128-bit UUIDs are opaque identifiers), instants are
`Int`.  `run_at` is kept optional because the claim SQL defensively
coalesces it even though the column is declared NOT NULL. -/
structure Run where
  id : Nat
  name : String
  status : RunStatus
  actor : String
  correlation_id : String
  inputs : Doc
  outputs : Option Doc
  error : Option Doc
  queued_at : Option Int
  locked_at : Option Int
  locked_by : Option String
  lease_expires_at : Option Int
  run_at : Option Int
  priority : Int
  attempt : Nat
  max_attempts : Option Nat
  created_at : Int
  started_at : Option Int
  completed_at : Option Int
  parent_run_id : Option Nat
deriving DecidableEq, Repr

/-! ## C2 claim protocol: `claim_run` (src/core/worker.py lines 53-97)

The claim SQL is one statement: a `candidate` CTE filtering and ordering
eligible rows (limit `batch_size`), then an `UPDATE ... RETURNING` over the
candidates.  `NOW()` is a single instant `now` for the whole statement. -/

/-- SQL `COALESCE(run_at, queued_at, created_at, NOW())`: first non-NULL
value.  `created_at` is NOT NULL, so the `NOW()` fallback is unreachable. -/
def coalesceReady (r : Run) : Int :=
  match r.run_at with
  | some t => t
  | none =>
    match r.queued_at with
    | some t => t
    | none => r.created_at

/-- The `WHERE` filter of the candidate CTE:
`(status = QUEUED AND COALESCE(run_at, queued_at, created_at, NOW()) <= NOW())
 OR (status = RUNNING AND lease_expires_at IS NOT NULL AND lease_expires_at < NOW())`. -/
def eligibleRun (now : Int) (r : Run) : Bool :=
  (r.status == .QUEUED && coalesceReady r ≤ now)
  || (r.status == .RUNNING &&
      (match r.lease_expires_at with
       | some l => l < now
       | none => false))

/-- Sort key for an optional column under `ASC NULLS LAST`:
non-NULL values ascending first, NULL after all of them. -/
def optKey (o : Option Int) : ℕ ×ₗ Int :=
  toLex (match o with
    | some v => (0, v)
    | none => (1, 0))

/-- `CASE WHEN status = 'RUNNING' THEN 0 ELSE 1 END` (reclaim-first). -/
def reclaimRank (r : Run) : ℕ :=
  if r.status == .RUNNING then 0 else 1

/-- The full `ORDER BY` key of the candidate CTE:
`priority ASC, reclaim-first, run_at ASC NULLS LAST,
 queued_at ASC NULLS LAST, created_at ASC`, lexicographically. -/
def claimKey (r : Run) : Int ×ₗ (ℕ ×ₗ ((ℕ ×ₗ Int) ×ₗ ((ℕ ×ₗ Int) ×ₗ Int))) :=
  toLex (r.priority,
    toLex (reclaimRank r,
      toLex (optKey r.run_at,
        toLex (optKey r.queued_at, r.created_at))))

/-- Boolean comparison realizing the claim `ORDER BY`. -/
def claimLE (a b : Run) : Bool :=
  decide (claimKey a ≤ claimKey b)

/-- The candidate CTE: filter eligible rows, order by the claim key,
limit `batch_size`.  (`FOR UPDATE SKIP LOCKED` only matters under
concurrent statements and has no effect in this single-statement model.) -/
def claimCandidates (now : Int) (batch_size : ℕ) (runs : List Run) : List Run :=
  ((runs.filter (eligibleRun now)).mergeSort claimLE).take batch_size

/-- The `UPDATE ... SET` clause applied to one selected row:
`status=RUNNING, locked_at=NOW(), locked_by=:worker_id,
 lease_expires_at=NOW()+lease_seconds, started_at=COALESCE(started_at, NOW())`. -/
def transitionRow (now : Int) (worker_id : String) (lease_seconds : Int) (r : Run) : Run :=
  { r with
    status := .RUNNING
    locked_at := some now
    locked_by := some worker_id
    lease_expires_at := some (now + lease_seconds)
    started_at := some (r.started_at.getD now) }

/-- `claim_run` (src/core/worker.py): the whole claim statement.  Returns
the updated table and the `RETURNING r.id` rows of the update. -/
def claim_run (worker_id : String) (batch_size : ℕ) (lease_seconds : Int)
    (now : Int) (runs : List Run) : List Run × List ℕ :=
  let ids := (claimCandidates now batch_size runs).map Run.id
  (runs.map (fun r =>
    if ids.contains r.id then transitionRow now worker_id lease_seconds r else r),
   ids)

/-! Helper lemmas for the claim protocol. -/

theorem claimLE_trans (a b c : Run) (hab : claimLE a b) (hbc : claimLE b c) :
    claimLE a c = true := by
  simp only [claimLE, decide_eq_true_eq] at *
  exact le_trans hab hbc

theorem claimLE_total (a b : Run) : claimLE a b || claimLE b a := by
  simp only [claimLE]
  rcases le_total (claimKey a) (claimKey b) with h | h <;> simp [h]

theorem mem_claimCandidates {now : Int} {bs : ℕ} {runs : List Run} {r : Run}
    (h : r ∈ claimCandidates now bs runs) : r ∈ runs ∧ eligibleRun now r = true := by
  have h1 : r ∈ (runs.filter (eligibleRun now)).mergeSort claimLE :=
    List.mem_of_mem_take h
  have h2 : r ∈ runs.filter (eligibleRun now) :=
    (List.mergeSort_perm (runs.filter (eligibleRun now)) claimLE).mem_iff.mp h1
  exact ⟨List.mem_of_mem_filter h2, List.of_mem_filter h2⟩

theorem claimCandidates_sorted (now : Int) (bs : ℕ) (runs : List Run) :
    (claimCandidates now bs runs).Pairwise (fun a b => claimLE a b = true) := by
  have h := List.sorted_mergeSort claimLE_trans claimLE_total
    (runs.filter (eligibleRun now))
  have := List.Pairwise.sublist (List.take_sublist bs _) h
  simpa using this

/-- Unfolding of the claim `ORDER BY` comparison into the five sort columns. -/
theorem claimLE_iff (a b : Run) : claimLE a b = true ↔
    (a.priority < b.priority ∨ (a.priority = b.priority ∧
      (reclaimRank a < reclaimRank b ∨ (reclaimRank a = reclaimRank b ∧
        (optKey a.run_at < optKey b.run_at ∨ (optKey a.run_at = optKey b.run_at ∧
          (optKey a.queued_at < optKey b.queued_at ∨ (optKey a.queued_at = optKey b.queued_at ∧
            a.created_at ≤ b.created_at)))))))) := by
  simp [claimLE, claimKey, Prod.Lex.le_iff, Prod.Lex.lt_iff]

/-- C1: For every state of the runs table, `claim(worker_id, batch_size,
lease_seconds)` selects only eligible rows (QUEUED with
`coalesce(run_at, queued_at, created_at, now) ≤ now`, or RUNNING with
`lease_expires_at < now`); a QUEUED run with `run_at > now` is never
returned; candidates are ordered by priority ascending, then RUNNING
before QUEUED, then `run_at`, `queued_at` (ascending, NULLS LAST), then
`created_at` ascending; and each selected row transitions to
`status=RUNNING, locked_by=worker_id, locked_at=now,
lease_expires_at=now+lease_seconds, started_at=coalesce(started_at, now)`
while every unselected row is untouched. -/
theorem c1_claim_protocol (w : String) (bs : ℕ) (ls now : Int) (runs : List Run) :
    (∀ r ∈ claimCandidates now bs runs, eligibleRun now r = true)
    ∧ (∀ r ∈ claimCandidates now bs runs, ∀ t : Int,
        r.status = .QUEUED → r.run_at = some t → t ≤ now)
    ∧ (claimCandidates now bs runs).Pairwise (fun a b =>
        a.priority < b.priority ∨ (a.priority = b.priority ∧
          (reclaimRank a < reclaimRank b ∨ (reclaimRank a = reclaimRank b ∧
            (optKey a.run_at < optKey b.run_at ∨ (optKey a.run_at = optKey b.run_at ∧
              (optKey a.queued_at < optKey b.queued_at ∨ (optKey a.queued_at = optKey b.queued_at ∧
                a.created_at ≤ b.created_at))))))))
    ∧ ((claim_run w bs ls now runs).1 = runs.map (fun r =>
        if (claim_run w bs ls now runs).2.contains r.id then
          { r with
            status := .RUNNING
            locked_at := some now
            locked_by := some w
            lease_expires_at := some (now + ls)
            started_at := some (r.started_at.getD now) }
        else r)) := by
  refine ⟨fun r hr => (mem_claimCandidates hr).2, fun r hr t hq hra => ?_, ?_, rfl⟩
  · have he := (mem_claimCandidates hr).2
    simp only [eligibleRun, Bool.or_eq_true, Bool.and_eq_true, beq_iff_eq] at he
    rcases he with ⟨-, hle⟩ | ⟨hrun, -⟩
    · have : coalesceReady r = t := by simp [coalesceReady, hra]
      rw [this] at hle
      exact of_decide_eq_true hle
    · rw [hq] at hrun; cases hrun
  · exact (claimCandidates_sorted now bs runs).imp (fun h => (claimLE_iff _ _).mp h)

/-- A concrete ready run used by witnesses: QUEUED, eligible at `now = 100`. -/
def rReady : Run :=
  { id := 1, name := "core.test.echo@v1", status := .QUEUED, actor := "system",
    correlation_id := "c1", inputs := "", outputs := none, error := none,
    queued_at := some 40, locked_at := none, locked_by := none,
    lease_expires_at := none, run_at := some 50, priority := 100, attempt := 0,
    max_attempts := none, created_at := 30, started_at := none,
    completed_at := none, parent_run_id := none }

/-- A concrete future run used by witnesses: QUEUED with `run_at > 100`. -/
def rFuture : Run :=
  { rReady with id := 2, run_at := some 200, queued_at := some 41, created_at := 31 }

/-- Witness for C1 at the table `[rFuture, rReady]`, `now = 100`: the claim
theorem applies, the selected run is eligible, and its `run_at ≤ now`. -/
theorem c1_claim_protocol_witness :
    eligibleRun 100 rReady = true ∧ (50 : Int) ≤ 100 := by
  have hf : List.filter (eligibleRun 100) [rFuture, rReady] = [rReady] := by decide
  have hc : claimCandidates 100 2 [rFuture, rReady] = [rReady] := by
    simp [claimCandidates, hf, List.mergeSort]
  have hmem : rReady ∈ claimCandidates 100 2 [rFuture, rReady] := by
    rw [hc]; exact List.mem_singleton.mpr rfl
  exact ⟨(c1_claim_protocol "w1" 2 60 100 [rFuture, rReady]).1 rReady hmem,
    (c1_claim_protocol "w1" 2 60 100 [rFuture, rReady]).2.1 rReady hmem 50 rfl rfl⟩

/-! ## Ownership assertion and terminal finalization
(`RunContext.assert_ownership`, `execute_run` in src/core/blueprints/runner.py) -/

/-- `COMPLETED`, `FAILED` and `CANCELLED` are the terminal statuses. -/
def terminalStatus (s : RunStatus) : Bool :=
  s == .COMPLETED || s == .FAILED || s == .CANCELLED

/-- The `WHERE` guard shared by both terminal CAS updates in `execute_run`
(lines 549-552 and 589-592):
`status = RUNNING AND (:worker_id IS NULL OR locked_by = :worker_id)
 AND (:worker_id IS NULL OR lease_expires_at > NOW())`. -/
def finalizeGuard (worker_id : Option String) (now : Int) (r : Run) : Bool :=
  r.status == .RUNNING
  && (worker_id.isNone || r.locked_by == worker_id)
  && (worker_id.isNone ||
      (match r.lease_expires_at with
       | some l => now < l
       | none => false))

/-- Success CAS on one row: `SET status=COMPLETED, completed_at=NOW(),
outputs=:outputs WHERE id=:run_id AND` the finalize guard. -/
def casComplete (run_id : ℕ) (worker_id : Option String) (now : Int) (outs : Doc)
    (r : Run) : Run :=
  if r.id == run_id && finalizeGuard worker_id now r then
    { r with status := .COMPLETED, completed_at := some now, outputs := some outs }
  else r

/-- Failure CAS on one row: `SET status=FAILED, completed_at=NOW(),
error=:error WHERE id=:run_id AND` the finalize guard. -/
def casFail (run_id : ℕ) (worker_id : Option String) (now : Int) (err : Doc)
    (r : Run) : Run :=
  if r.id == run_id && finalizeGuard worker_id now r then
    { r with status := .FAILED, completed_at := some now, error := some err }
  else r

/-- The success `UPDATE ... RETURNING id` over the table: the updated table
and whether any row was affected (`row` non-empty in the code). -/
def finalize_success (run_id : ℕ) (worker_id : Option String) (now : Int)
    (outs : Doc) (tbl : List Run) : List Run × Bool :=
  (tbl.map (casComplete run_id worker_id now outs),
   tbl.any (fun r => r.id == run_id && finalizeGuard worker_id now r))

/-- The failure `UPDATE ... RETURNING id` over the table. -/
def finalize_failure (run_id : ℕ) (worker_id : Option String) (now : Int)
    (err : Doc) (tbl : List Run) : List Run × Bool :=
  (tbl.map (casFail run_id worker_id now err),
   tbl.any (fun r => r.id == run_id && finalizeGuard worker_id now r))

theorem finalizeGuard_false_of_terminal {w : Option String} {now : Int} {r : Run}
    (h : terminalStatus r.status = true) : finalizeGuard w now r = false := by
  cases hs : r.status <;> simp_all [terminalStatus, finalizeGuard]

/-- C2: Runs in a terminal status are never modified by either terminal
finalization path: both CAS updates require `status=RUNNING` (plus, with a
worker id, `locked_by=worker` and `lease_expires_at > now`), the only
status changes they can make are RUNNING→COMPLETED and RUNNING→FAILED,
applying one after the other never changes the second's target
(double-finalization impossible), and when a CAS affects zero rows the
table is unchanged (the worker wrote nothing). -/
theorem c2_terminal_cas (rid : ℕ) (w : Option String) (now now' : Int)
    (outs err : Doc) (r : Run) :
    (terminalStatus r.status = true →
      casComplete rid w now outs r = r ∧ casFail rid w now err r = r)
    ∧ ((casComplete rid w now outs r).status = r.status ∨
        (r.status = .RUNNING ∧ (casComplete rid w now outs r).status = .COMPLETED))
    ∧ ((casFail rid w now err r).status = r.status ∨
        (r.status = .RUNNING ∧ (casFail rid w now err r).status = .FAILED))
    ∧ (casFail rid w now' err (casComplete rid w now outs r) = casComplete rid w now outs r ∨
        casComplete rid w now outs r = r)
    ∧ (casComplete rid w now' outs (casFail rid w now err r) = casFail rid w now err r ∨
        casFail rid w now err r = r)
    ∧ (∀ tbl : List Run, (finalize_success rid w now outs tbl).2 = false →
        (finalize_success rid w now outs tbl).1 = tbl)
    ∧ (∀ tbl : List Run, (finalize_failure rid w now err tbl).2 = false →
        (finalize_failure rid w now err tbl).1 = tbl) := by
  refine ⟨fun h => ?_, ?_, ?_, ?_, ?_, fun tbl h => ?_, fun tbl h => ?_⟩
  · simp [casComplete, casFail, finalizeGuard_false_of_terminal h]
  · by_cases hc : (r.id == rid && finalizeGuard w now r) = true
    · right
      have hrun : r.status = .RUNNING := by
        simp only [finalizeGuard, Bool.and_eq_true, beq_iff_eq] at hc
        exact hc.2.1.1
      exact ⟨hrun, by simp [casComplete, hc]⟩
    · left; simp [casComplete, hc]
  · by_cases hc : (r.id == rid && finalizeGuard w now r) = true
    · right
      have hrun : r.status = .RUNNING := by
        simp only [finalizeGuard, Bool.and_eq_true, beq_iff_eq] at hc
        exact hc.2.1.1
      exact ⟨hrun, by simp [casFail, hc]⟩
    · left; simp [casFail, hc]
  · by_cases hc : (r.id == rid && finalizeGuard w now r) = true
    · left
      have h1 : (casComplete rid w now outs r).status = .COMPLETED := by
        simp [casComplete, hc]
      have h2 : terminalStatus (casComplete rid w now outs r).status = true := by
        rw [h1]; rfl
      have h3 := @finalizeGuard_false_of_terminal w now' _ h2
      simp [casFail, h3]
    · right; simp [casComplete, hc]
  · by_cases hc : (r.id == rid && finalizeGuard w now r) = true
    · left
      have h1 : (casFail rid w now err r).status = .FAILED := by
        simp [casFail, hc]
      have h2 : terminalStatus (casFail rid w now err r).status = true := by
        rw [h1]; rfl
      have h3 := @finalizeGuard_false_of_terminal w now' _ h2
      simp [casComplete, h3]
    · right; simp [casFail, hc]
  · simp only [finalize_success, List.any_eq_false] at *
    refine ((List.map_congr_left fun x hx => ?_).trans (List.map_id tbl))
    simp [casComplete, h x hx]
  · simp only [finalize_failure, List.any_eq_false] at *
    refine ((List.map_congr_left fun x hx => ?_).trans (List.map_id tbl))
    simp [casFail, h x hx]

/-- A concrete terminal run used by witnesses. -/
def rDone : Run :=
  { rReady with
    id := 7
    status := .COMPLETED
    completed_at := some 90
    outputs := some "o" }

/-- Witness for C2 at the COMPLETED run `rDone`: both CAS paths (with and
without a worker id) leave it untouched. -/
theorem c2_terminal_cas_witness :
    casComplete 7 (some "w1") 100 "o2" rDone = rDone ∧
    casFail 7 (some "w1") 100 "e" rDone = rDone :=
  (c2_terminal_cas 7 (some "w1") 100 101 "o2" "e" rDone).1 (by decide)

/-! ## C6: reclaim boundary — `lease_expires_at` exactly at `now`.

The claim filter (src/core/worker.py line 63) uses the strict comparison
`lease_expires_at < NOW()`, so a RUNNING run whose lease expires exactly
at `now` is NOT yet reclaimable. -/

/-- A RUNNING run whose lease expires exactly at instant 5. -/
def rLeaseNow : Run :=
  { rReady with
    id := 3
    status := .RUNNING
    locked_by := some "w1"
    locked_at := some 0
    lease_expires_at := some 5
    started_at := some 0 }

/-- C6 counterexample: the RUNNING run `rLeaseNow` with
`lease_expires_at = some 5` does NOT satisfy the claim query's reclaim
condition at `now = 5`, and `claim` selects nothing from the table
containing only it — contradicting the claim that a run whose lease
expires exactly now is reclaimable at that instant. -/
theorem c6_lease_boundary_counterexample :
    rLeaseNow.status = .RUNNING ∧ rLeaseNow.lease_expires_at = some 5 ∧
    eligibleRun 5 rLeaseNow = false ∧ claimCandidates 5 1 [rLeaseNow] = [] := by
  have hf : List.filter (eligibleRun 5) [rLeaseNow] = [] := by decide
  exact ⟨rfl, rfl, by decide, by simp [claimCandidates, hf, List.mergeSort]⟩

/-- C6 amended: a RUNNING run satisfies the reclaim condition exactly when
its lease expiry is non-null and strictly earlier than `now`; at
`lease_expires_at = now` it is not reclaimable, and at any strictly later
instant it is. -/
theorem c6_lease_boundary (r : Run) (now : Int) (hrun : r.status = .RUNNING) :
    (eligibleRun now r = true ↔ ∃ l, r.lease_expires_at = some l ∧ l < now)
    ∧ (r.lease_expires_at = some now → eligibleRun now r = false)
    ∧ (∀ l, r.lease_expires_at = some l → l < now → eligibleRun now r = true) := by
  have hiff : eligibleRun now r = true ↔ ∃ l, r.lease_expires_at = some l ∧ l < now := by
    cases hl : r.lease_expires_at <;>
      simp [eligibleRun, hrun, hl]
  refine ⟨hiff, fun h => ?_, fun l hl hlt => hiff.mpr ⟨l, hl, hlt⟩⟩
  rcases hb : eligibleRun now r with _ | _
  · rfl
  · rcases hiff.mp hb with ⟨l, hl, hlt⟩
    rw [h] at hl
    cases hl
    exact absurd hlt (lt_irrefl now)

/-- Witness for C6: at `now = 6` the same run (lease expiry 5) is
reclaimable, and at `now = 5` it is not. -/
theorem c6_lease_boundary_witness :
    eligibleRun 6 rLeaseNow = true ∧ eligibleRun 5 rLeaseNow = false :=
  ⟨(c6_lease_boundary rLeaseNow 6 rfl).2.2 5 rfl (by decide),
   (c6_lease_boundary rLeaseNow 5 rfl).2.1 rfl⟩

/-! ## C9: `RunContext.assert_ownership` (src/core/blueprints/runner.py 88-112)

`if not self.worker_id: return` — a falsy `worker_id` (None, or the empty
string by Python truthiness) skips the ownership query entirely. -/

/-- Outcome of `assert_ownership`: returned without querying, query found
the owning row, or raised `LostLeaseError`. -/
inductive AssertOutcome
  | skippedNoQuery
  | owned
  | lostLease
deriving DecidableEq, Repr

/-- The ownership query's `WHERE` clause:
`id=:run_id AND status=RUNNING AND locked_by=:worker_id AND
 lease_expires_at IS NOT NULL AND lease_expires_at > NOW()`. -/
def assertGuard (w : String) (run_id : ℕ) (now : Int) (r : Run) : Bool :=
  r.id == run_id && r.status == .RUNNING && r.locked_by == some w
  && (match r.lease_expires_at with
      | some l => now < l
      | none => false)

/-- `RunContext.assert_ownership`. -/
def assert_ownership (worker_id : Option String) (run_id : ℕ) (now : Int)
    (tbl : List Run) : AssertOutcome :=
  match worker_id with
  | none => .skippedNoQuery
  | some w =>
    if w == "" then .skippedNoQuery
    else if tbl.any (assertGuard w run_id now) then .owned else .lostLease

/-- An `events` row (subset of the columns of `class Event` in
src/core/models.py that `RunContext.emit_event` fills). -/
structure Event where
  id : ℕ
  event_name : String
  occurred_at : Int
  run_id : ℕ
  step_id : Option ℕ
  data : Doc
deriving DecidableEq, Repr

/-- `RunContext.emit_event`: asserts ownership (raising `LostLeaseError`,
modelled as `.error ()`, when it fails), then appends one event row. -/
def emit_event (worker_id : Option String) (run_id : ℕ) (now : Int)
    (tbl : List Run) (fresh_id : ℕ) (event_name : String) (step_id : Option ℕ)
    (data : Doc) (events : List Event) : Except Unit (List Event) :=
  match assert_ownership worker_id run_id now tbl with
  | .lostLease => .error ()
  | _ => .ok (events ++
      [{ id := fresh_id, event_name := event_name, occurred_at := now,
         run_id := run_id, step_id := step_id, data := data }])

/-- C9: with `worker_id = None` (non-worker execution paths such as nested
`run_blueprint` calls) `assert_ownership` returns without querying and
never raises `LostLease`; `emit_event` therefore always succeeds; and the
terminal CAS guard collapses to `status=RUNNING` alone, dropping the
`locked_by` and `lease_expires_at` conditions. -/
theorem c9_no_worker_unguarded (rid : ℕ) (now : Int) (tbl : List Run)
    (fid : ℕ) (en : String) (sid : Option ℕ) (d : Doc) (evs : List Event)
    (outs err : Doc) (r : Run) :
    assert_ownership none rid now tbl = .skippedNoQuery
    ∧ assert_ownership none rid now tbl ≠ .lostLease
    ∧ (∃ evs', emit_event none rid now tbl fid en sid d evs = .ok evs')
    ∧ finalizeGuard none now r = (r.status == .RUNNING)
    ∧ (casComplete rid none now outs r =
        if r.id == rid && r.status == .RUNNING then
          { r with status := .COMPLETED, completed_at := some now, outputs := some outs }
        else r)
    ∧ (casFail rid none now err r =
        if r.id == rid && r.status == .RUNNING then
          { r with status := .FAILED, completed_at := some now, error := some err }
        else r) := by
  refine ⟨rfl, by simp [assert_ownership], ⟨_, rfl⟩, ?_, ?_, ?_⟩
  · simp [finalizeGuard]
  · simp [casComplete, finalizeGuard]
  · simp [casFail, finalizeGuard]

/-! ## C6 DAG orchestration: `RunContext.spawn_run`
(src/core/blueprints/runner.py lines 292-390)

`spawn_run` reads the `run_edges` fast path on the session's snapshot,
then inserts child run + edge in one transaction; a unique-constraint
violation of `(parent_run_id, child_key)` at commit (a concurrent spawn
won the race) rolls the whole transaction back and re-reads the winner.
The model takes two states: `read` — the snapshot the fast-path lookup
sees — and `write` — the committed state the insert's unique constraint
is checked against (they coincide for a sequential caller). -/

/-- A row of `run_edges` (`class RunEdge` in src/core/models.py). -/
structure RunEdge where
  id : ℕ
  parent_run_id : ℕ
  child_run_id : ℕ
  relation : String
  child_key : Option String
  created_at : Int
deriving DecidableEq, Repr

/-- The `runs` and `run_edges` tables together. -/
structure OrchState where
  runs : List Run
  edges : List RunEdge
deriving DecidableEq, Repr

/-- `enqueue_run` (src/core/blueprints/runner.py lines 14-75): build one
QUEUED run row.  `fresh_id` models `uuid.uuid4()`. -/
def enqueue_run (fresh_id : ℕ) (blueprint_ref : String) (inputs : Doc)
    (actor correlation_id : String) (run_at : Option Int) (priority : Int)
    (max_attempts : Option ℕ) (now : Int) : Run :=
  { id := fresh_id, name := blueprint_ref, status := .QUEUED, actor := actor,
    correlation_id := correlation_id, inputs := inputs, outputs := none,
    error := none, queued_at := some now, locked_at := none, locked_by := none,
    lease_expires_at := none, run_at := some (run_at.getD now),
    priority := priority, attempt := 0, max_attempts := max_attempts,
    created_at := now, started_at := none, completed_at := none,
    parent_run_id := none }

/-- Lookup of `(parent_run_id, child_key)` in `run_edges`. -/
def findEdge (edges : List RunEdge) (p : ℕ) (k : String) : Option RunEdge :=
  edges.find? (fun e => e.parent_run_id == p && e.child_key == some k)

/-- The child run `spawn_run` builds: `enqueue_run(..., commit=False)` with
the parent's actor/correlation id, inherited priority when none is given,
then `child_run.parent_run_id = self.run.id`. -/
def spawnChild (parent : Run) (newRunId : ℕ) (blueprint_ref : String)
    (inputs : Doc) (priority : Option Int) (run_at : Option Int) (now : Int) : Run :=
  { enqueue_run newRunId blueprint_ref inputs parent.actor parent.correlation_id
      run_at (priority.getD parent.priority) none now with
    parent_run_id := some parent.id }

/-- The `run_edges` row `spawn_run` builds. -/
def spawnEdge (parent : Run) (newRunId newEdgeId : ℕ) (child_key : Option String)
    (now : Int) : RunEdge :=
  { id := newEdgeId, parent_run_id := parent.id, child_run_id := newRunId,
    relation := "child", child_key := child_key, created_at := now }

/-- `RunContext.spawn_run`.  Returns the child run id and the committed
state.  The slow path's `IntegrityError` handler (rollback + re-read) is
the middle `findEdge write.edges` match: the insert commits only when the
`(parent_run_id, child_key)` unique constraint holds in `write`. -/
def spawn_run (read write : OrchState) (parent : Run) (newRunId newEdgeId : ℕ)
    (blueprint_ref : String) (inputs : Doc) (child_key : Option String)
    (priority : Option Int) (run_at : Option Int) (now : Int) : ℕ × OrchState :=
  let inserted : OrchState :=
    { runs := write.runs ++ [spawnChild parent newRunId blueprint_ref inputs priority run_at now],
      edges := write.edges ++ [spawnEdge parent newRunId newEdgeId child_key now] }
  match child_key with
  | none => (newRunId, inserted)
  | some k =>
    match findEdge read.edges parent.id k with
    | some e => (e.child_run_id, write)
    | none =>
      match findEdge write.edges parent.id k with
      | some e => (e.child_run_id, write)
      | none => (newRunId, inserted)

/-- Number of `run_edges` rows for `(parent_run_id, child_key)`. -/
def countEdges (edges : List RunEdge) (p : ℕ) (k : String) : ℕ :=
  (edges.filter (fun e => e.parent_run_id == p && e.child_key == some k)).length

/-- Number of `runs` rows with a given id. -/
def countRunsWithId (runs : List Run) (i : ℕ) : ℕ :=
  (runs.filter (fun r => r.id == i)).length

/-- N sequential `spawn_run` calls with the same `(parent, child_key)`,
each drawing fresh `(run id, edge id)` from the supply; returns the list
of returned child ids and the final state. -/
def spawnN (parent : Run) (blueprint_ref : String) (inputs : Doc) (k : String)
    (priority : Option Int) (run_at : Option Int) (now : Int) :
    OrchState → List (ℕ × ℕ) → List ℕ × OrchState
  | st, [] => ([], st)
  | st, (rid, eid) :: rest =>
    let fst := spawn_run st st parent rid eid blueprint_ref inputs (some k)
      priority run_at now
    let r := spawnN parent blueprint_ref inputs k priority run_at now fst.2 rest
    (fst.1 :: r.1, r.2)

theorem spawn_run_existing {st : OrchState} {parent : Run} {k : String} {e : RunEdge}
    (h : findEdge st.edges parent.id k = some e)
    (write : OrchState) (rid eid : ℕ) (bref : String) (inp : Doc)
    (prio : Option Int) (rat : Option Int) (now : Int) :
    spawn_run st write parent rid eid bref inp (some k) prio rat now =
      (e.child_run_id, write) := by
  simp [spawn_run, h]

theorem spawnN_absorbed {st : OrchState} {parent : Run} {k : String} {e : RunEdge}
    (h : findEdge st.edges parent.id k = some e)
    (bref : String) (inp : Doc) (prio : Option Int) (rat : Option Int) (now : Int) :
    ∀ l : List (ℕ × ℕ),
      spawnN parent bref inp k prio rat now st l =
        (List.replicate l.length e.child_run_id, st) := by
  intro l
  induction l with
  | nil => simp [spawnN]
  | cons hd tl ih =>
    obtain ⟨rid, eid⟩ := hd
    simp [spawnN, spawn_run_existing h, ih, List.replicate_succ]

theorem findEdge_after_insert {st : OrchState} {parent : Run} {k : String}
    (h : findEdge st.edges parent.id k = none) (rid eid : ℕ) (now : Int) :
    findEdge (st.edges ++ [spawnEdge parent rid eid (some k) now]) parent.id k =
      some (spawnEdge parent rid eid (some k) now) := by
  simp only [findEdge] at h
  simp [findEdge, List.find?_append, h, spawnEdge]

/-- C3: for every parent run and non-null `child_key` k, spawning N ≥ 1
times returns the same child id every time and leaves exactly one child
run row and exactly one edge row for `(parent, k)`; a fast-path hit or a
lost insert race returns the existing/winner's child id without writing
anything (so no orphan child is ever left); and the slow path inserts the
child and its edge together, the edge pointing at the child and the child
pointing back at the parent. -/
theorem c3_spawn_idempotent (st : OrchState) (parent : Run) (k : String)
    (bref : String) (inp : Doc) (prio : Option Int) (rat : Option Int) (now : Int) :
    (∀ (write : OrchState) (e : RunEdge) (rid eid : ℕ),
      findEdge st.edges parent.id k = some e →
      spawn_run st write parent rid eid bref inp (some k) prio rat now =
        (e.child_run_id, write))
    ∧ (∀ (write : OrchState) (e : RunEdge) (rid eid : ℕ),
      findEdge st.edges parent.id k = none →
      findEdge write.edges parent.id k = some e →
      spawn_run st write parent rid eid bref inp (some k) prio rat now =
        (e.child_run_id, write))
    ∧ (∀ rid eid : ℕ, findEdge st.edges parent.id k = none →
      spawn_run st st parent rid eid bref inp (some k) prio rat now =
        (rid, { runs := st.runs ++ [spawnChild parent rid bref inp prio rat now],
                edges := st.edges ++ [spawnEdge parent rid eid (some k) now] })
      ∧ (spawnEdge parent rid eid (some k) now).child_run_id =
          (spawnChild parent rid bref inp prio rat now).id
      ∧ (spawnChild parent rid bref inp prio rat now).parent_run_id = some parent.id)
    ∧ (∀ (rid eid : ℕ) (rest : List (ℕ × ℕ)),
      findEdge st.edges parent.id k = none →
      spawnN parent bref inp k prio rat now st ((rid, eid) :: rest) =
        (rid :: List.replicate rest.length rid,
         { runs := st.runs ++ [spawnChild parent rid bref inp prio rat now],
           edges := st.edges ++ [spawnEdge parent rid eid (some k) now] })
      ∧ countEdges (st.edges ++ [spawnEdge parent rid eid (some k) now]) parent.id k =
          countEdges st.edges parent.id k + 1
      ∧ countEdges st.edges parent.id k = 0
      ∧ ((∀ r ∈ st.runs, r.id ≠ rid) →
          countRunsWithId (st.runs ++ [spawnChild parent rid bref inp prio rat now]) rid = 1)) := by
  refine ⟨fun write e rid eid h => spawn_run_existing h write rid eid bref inp prio rat now,
    fun write e rid eid h1 h2 => by simp [spawn_run, h1, h2],
    fun rid eid h => ⟨by simp [spawn_run, h], rfl, rfl⟩,
    fun rid eid rest h => ?_⟩
  have hstep : spawn_run st st parent rid eid bref inp (some k) prio rat now =
      (rid, { runs := st.runs ++ [spawnChild parent rid bref inp prio rat now],
              edges := st.edges ++ [spawnEdge parent rid eid (some k) now] }) := by
    simp [spawn_run, h]
  refine ⟨?_, ?_, ?_, fun hfresh => ?_⟩
  · have habs := @spawnN_absorbed
      { runs := st.runs ++ [spawnChild parent rid bref inp prio rat now],
        edges := st.edges ++ [spawnEdge parent rid eid (some k) now] }
      parent k (spawnEdge parent rid eid (some k) now)
      (findEdge_after_insert h rid eid now) bref inp prio rat now rest
    rw [show (spawnEdge parent rid eid (some k) now).child_run_id = rid from rfl] at habs
    simp [spawnN, hstep, habs]
  · simp [countEdges, List.filter_append, spawnEdge]
  · have : ∀ e ∈ st.edges, ¬(e.parent_run_id == parent.id && e.child_key == some k) = true := by
      simpa [findEdge] using h
    simp only [countEdges, List.length_eq_zero]
    exact List.filter_eq_nil_iff.mpr this
  · have h0 : (st.runs.filter (fun r => r.id == rid)) = [] :=
      List.filter_eq_nil_iff.mpr (fun r hr => by simp [hfresh r hr])
    simp [countRunsWithId, List.filter_append, h0, spawnChild, enqueue_run]

/-- A concrete parent and state for the C3 witness. -/
def pRun : Run :=
  { rReady with
    id := 10
    status := .RUNNING
    locked_by := some "w1"
    lease_expires_at := some 200
    priority := 42 }

/-- Witness for C3: from a state with no edge for `(pRun, "k")`, three
spawns return `[21, 21, 21]`, add exactly one child run (id 21, parent 10)
and exactly one edge. -/
theorem c3_spawn_idempotent_witness :
    spawnN pRun "bp@v1" "{}" "k" none none 100 ⟨[pRun], []⟩
        [(21, 31), (22, 32), (23, 33)] =
      ([21, 21, 21],
       { runs := [pRun] ++ [spawnChild pRun 21 "bp@v1" "{}" none none 100],
         edges := [] ++ [spawnEdge pRun 21 31 (some "k") 100] })
    ∧ countEdges ([] ++ [spawnEdge pRun 21 31 (some "k") 100]) pRun.id "k" = 0 + 1
    ∧ countRunsWithId ([pRun] ++ [spawnChild pRun 21 "bp@v1" "{}" none none 100]) 21 = 1 := by
  have h := (c3_spawn_idempotent ⟨[pRun], []⟩ pRun "k" "bp@v1" "{}" none none 100).2.2.2
    21 31 [(22, 32), (23, 33)] rfl
  exact ⟨h.1, by decide, h.2.2.2 (by decide)⟩

/-! ## `RunContext.wait_runs` (src/core/blueprints/runner.py lines 392-491)

Each loop iteration: assert parent ownership; check the timeout
(`if timeout and (time.time() - start_time) > timeout` — Python truthiness
makes `timeout=None` AND `timeout=0` skip the check); read `(id, status)`
for the watched ids on a fresh session (one row per run row, i.e. per
distinct id); evaluate the policy; otherwise sleep and poll again.  The
model indexes iterations by `i`: `own i` is the ownership-assertion
outcome, `elapsedAt i` the elapsed time and `snapAt i` the child statuses
seen at iteration `i`; `fuel` bounds the number of iterations modelled. -/

/-- A child counts as failed when FAILED or CANCELLED. -/
def failedStatus (s : RunStatus) : Bool :=
  s == .FAILED || s == .CANCELLED

/-- `if timeout and (time.time() - start_time) > timeout`. -/
def timeoutTriggered (timeout : Option Int) (elapsed : Int) : Bool :=
  match timeout with
  | some t => t != 0 && elapsed > t
  | none => false

/-- The per-poll query result: one `(id, status)` row per distinct watched
id (the DB returns one row per matching `runs` row). -/
def waitRows (run_ids : List ℕ) (snap : ℕ → RunStatus) : List (ℕ × RunStatus) :=
  run_ids.dedup.map (fun i => (i, snap i))

/-- `completed = [rid for rid, st in rows if st == COMPLETED]`. -/
def completedIds (rows : List (ℕ × RunStatus)) : List ℕ :=
  (rows.filter (fun p => p.2 == .COMPLETED)).map Prod.fst

/-- `failed = [rid for rid, st in rows if st in (FAILED, CANCELLED)]`. -/
def failedIds (rows : List (ℕ × RunStatus)) : List ℕ :=
  (rows.filter (fun p => failedStatus p.2)).map Prod.fst

/-- `wait_runs` policy, `'all'` or `'any'`. -/
inductive Policy
  | all
  | any
deriving DecidableEq, Repr

/-- How one `wait_runs` call ends. -/
inductive WaitOutcome
  | ret (completed failed : List ℕ) (policy_met : Bool)
  | lostLease
  | timeoutErr
  | childFailedErr (failed : List ℕ)
  | allFailedErr (failed : List ℕ)
  | fuelOut
deriving DecidableEq, Repr

/-- One iteration of the `wait_runs` loop body (up to the sleep):
`none` means fall through to the sleep and poll again. -/
def waitPoll (policy : Policy) (run_ids : List ℕ) (timeout : Option Int)
    (own : AssertOutcome) (elapsed : Int) (snap : ℕ → RunStatus) :
    Option WaitOutcome :=
  if own == .lostLease then some .lostLease
  else if timeoutTriggered timeout elapsed then some .timeoutErr
  else
    let rows := waitRows run_ids snap
    match policy with
    | .all =>
      if failedIds rows = [] then
        if (completedIds rows).length + (failedIds rows).length = run_ids.length then
          some (.ret (completedIds rows) [] true)
        else none
      else some (.childFailedErr (failedIds rows))
    | .any =>
      if completedIds rows = [] then
        if (failedIds rows).length = run_ids.length then
          some (.allFailedErr (failedIds rows))
        else none
      else some (.ret (completedIds rows) (failedIds rows) true)

/-- `RunContext.wait_runs`: iterate `waitPoll` from iteration `i` for at
most `fuel` polls. -/
def wait_runs (policy : Policy) (run_ids : List ℕ) (timeout : Option Int)
    (own : ℕ → AssertOutcome) (elapsedAt : ℕ → Int)
    (snapAt : ℕ → ℕ → RunStatus) : ℕ → ℕ → WaitOutcome
  | 0, _ => .fuelOut
  | fuel + 1, i =>
    match waitPoll policy run_ids timeout (own i) (elapsedAt i) (snapAt i) with
    | some o => o
    | none => wait_runs policy run_ids timeout own elapsedAt snapAt fuel (i + 1)

theorem waitRows_mem {run_ids : List ℕ} {snap : ℕ → RunStatus} {p : ℕ × RunStatus}
    (h : p ∈ waitRows run_ids snap) : p.1 ∈ run_ids ∧ p.2 = snap p.1 := by
  simp only [waitRows, List.mem_map] at h
  obtain ⟨j, hj, rfl⟩ := h
  exact ⟨List.mem_dedup.mp hj, rfl⟩

/-- C4 counterexample, refuting two parts of the claim as stated.
Left: with `timeout = 0` set, elapsed time 1 exceeds the timeout from the
second poll on, yet `wait_runs` never raises `TimeoutError` (Python's
`if timeout and ...` treats a zero timeout as no timeout), so the loop
runs out of fuel still polling.  Right: with the duplicated id list
`[1, 1]` whose (single) child is FAILED, `policy='any'` never raises
(`len(failed) == len(run_ids)` compares 1 with 2), again exhausting fuel. -/
theorem c4_wait_policy_counterexample :
    (wait_runs .all [0] (some 0) (fun _ => .owned) (fun i => (i : Int))
        (fun _ _ => .RUNNING) 3 0 = .fuelOut
      ∧ ((1 : Int) > 0) ∧ wait_runs .all [0] (some 0) (fun _ => .owned)
        (fun i => (i : Int)) (fun _ _ => .RUNNING) 3 0 ≠ .timeoutErr)
    ∧ (wait_runs .any [1, 1] none (fun _ => .owned) (fun i => (i : Int))
        (fun _ _ => .FAILED) 3 0 = .fuelOut
      ∧ ∀ l, wait_runs .any [1, 1] none (fun _ => .owned) (fun i => (i : Int))
          (fun _ _ => .FAILED) 3 0 ≠ .allFailedErr l) := by
  refine ⟨⟨by decide, by decide, by decide⟩, ⟨by decide, fun l => ?_⟩⟩
  have : wait_runs .any [1, 1] none (fun _ => .owned) (fun i => (i : Int))
      (fun _ _ => .FAILED) 3 0 = .fuelOut := by decide
  simp [this]

/-- C4 amended: for every non-empty, duplicate-free list of child run ids,
when ownership holds and the timeout has not fired: `policy='all'` raises
a child-failure error on any poll observing a FAILED/CANCELLED child
(fail-fast, regardless of the other children) and returns with all
children completed when every child is COMPLETED; `policy='any'` returns
on any poll observing a COMPLETED child and raises when every child is
FAILED/CANCELLED; a *nonzero* timeout raises a timeout error on the first
poll whose elapsed time strictly exceeds it; and whatever `waitPoll`
decides at iteration `i` is what `wait_runs` ends with. -/
theorem c4_wait_policy (run_ids : List ℕ) (timeout : Option Int)
    (own : AssertOutcome) (elapsed : Int) (snap : ℕ → RunStatus) :
    (own ≠ .lostLease → timeoutTriggered timeout elapsed = false →
      ((∃ i ∈ run_ids, failedStatus (snap i) = true) →
        ∃ l, waitPoll .all run_ids timeout own elapsed snap =
          some (.childFailedErr l) ∧ l ≠ [])
      ∧ (run_ids.Nodup → (∀ i ∈ run_ids, snap i = .COMPLETED) →
        waitPoll .all run_ids timeout own elapsed snap =
          some (.ret run_ids [] true))
      ∧ ((∃ i ∈ run_ids, snap i = .COMPLETED) →
        ∃ c f, waitPoll .any run_ids timeout own elapsed snap =
          some (.ret c f true) ∧ c ≠ [])
      ∧ (run_ids.Nodup → (∀ i ∈ run_ids, failedStatus (snap i) = true) →
        waitPoll .any run_ids timeout own elapsed snap =
          some (.allFailedErr run_ids)))
    ∧ (∀ (p : Policy) (t : Int), own ≠ .lostLease → timeout = some t → t ≠ 0 →
        elapsed > t → waitPoll p run_ids timeout own elapsed snap = some .timeoutErr)
    ∧ (∀ (p : Policy) (ownF : ℕ → AssertOutcome) (elF : ℕ → Int)
        (snapF : ℕ → ℕ → RunStatus) (fuel i : ℕ) (o : WaitOutcome),
        waitPoll p run_ids timeout (ownF i) (elF i) (snapF i) = some o →
        wait_runs p run_ids timeout ownF elF snapF (fuel + 1) i = o) := by
  refine ⟨fun hown hto => ?_, fun p t hown ht hne hgt => ?_, fun p ownF elF snapF fuel i o h => ?_⟩
  · have hb : (own == AssertOutcome.lostLease) = false := by
      cases own <;> simp_all
    refine ⟨fun ⟨i, hi, hf⟩ => ?_, fun hnd hall => ?_, fun ⟨i, hi, hc⟩ => ?_, fun hnd hall => ?_⟩
    · have hmem : i ∈ failedIds (waitRows run_ids snap) := by
        simp only [failedIds, List.mem_map]
        exact ⟨(i, snap i), List.mem_filter.mpr
          ⟨List.mem_map_of_mem _ (List.mem_dedup.mpr hi), hf⟩, rfl⟩
      have hne : failedIds (waitRows run_ids snap) ≠ [] := List.ne_nil_of_mem hmem
      exact ⟨failedIds (waitRows run_ids snap), by simp [waitPoll, hb, hto, hne], hne⟩
    · have hfail : failedIds (waitRows run_ids snap) = [] := by
        refine List.map_eq_nil_iff.mpr (List.filter_eq_nil_iff.mpr fun p hp => ?_)
        have := waitRows_mem hp
        rw [this.2, hall p.1 this.1]
        decide
      have hkeep : (waitRows run_ids snap).filter (fun p => p.2 == RunStatus.COMPLETED) =
          waitRows run_ids snap := by
        refine List.filter_eq_self.mpr fun p hp => ?_
        have := waitRows_mem hp
        rw [this.2, hall p.1 this.1]
        decide
      have hcomp : completedIds (waitRows run_ids snap) = run_ids := by
        rw [completedIds, hkeep]
        simp only [waitRows, List.map_map]
        show List.map id run_ids.dedup = run_ids
        rw [List.map_id]
        exact List.dedup_eq_self.mpr hnd
      simp [waitPoll, hb, hto, hfail, hcomp]
    · have hmem : i ∈ completedIds (waitRows run_ids snap) := by
        simp only [completedIds, List.mem_map]
        exact ⟨(i, snap i), List.mem_filter.mpr
          ⟨List.mem_map_of_mem _ (List.mem_dedup.mpr hi), by simp [hc]⟩, rfl⟩
      have hne : completedIds (waitRows run_ids snap) ≠ [] := List.ne_nil_of_mem hmem
      exact ⟨completedIds (waitRows run_ids snap), failedIds (waitRows run_ids snap),
        by simp [waitPoll, hb, hto, hne], hne⟩
    · have hcomp : completedIds (waitRows run_ids snap) = [] := by
        refine List.map_eq_nil_iff.mpr (List.filter_eq_nil_iff.mpr fun p hp => ?_)
        have hm := waitRows_mem hp
        have := hall p.1 hm.1
        rw [hm.2]
        cases hs : snap p.1 <;> simp_all [failedStatus]
      have hkeep : (waitRows run_ids snap).filter (fun p => failedStatus p.2) =
          waitRows run_ids snap := by
        refine List.filter_eq_self.mpr fun p hp => ?_
        have hm := waitRows_mem hp
        rw [hm.2]
        exact hall p.1 hm.1
      have hfail : failedIds (waitRows run_ids snap) = run_ids := by
        rw [failedIds, hkeep]
        simp only [waitRows, List.map_map]
        show List.map id run_ids.dedup = run_ids
        rw [List.map_id]
        exact List.dedup_eq_self.mpr hnd
      simp [waitPoll, hb, hto, hcomp, hfail]
  · have hb : (own == AssertOutcome.lostLease) = false := by
      cases own <;> simp_all
    have htt : timeoutTriggered timeout elapsed = true := by
      subst ht
      simp [timeoutTriggered, hne, hgt]
    simp [waitPoll, hb, htt]
  · simp [wait_runs, h]

/-- Witness for C4 at concrete inputs: a FAILED child makes an `'all'`
poll raise immediately, and a COMPLETED child makes an `'any'` poll
return; both via the amended theorem with every hypothesis discharged. -/
theorem c4_wait_policy_witness :
    (∃ l, waitPoll .all [5] none .owned 0 (fun _ => .FAILED) =
      some (.childFailedErr l) ∧ l ≠ [])
    ∧ (∃ c f, waitPoll .any [5] none .owned 0 (fun _ => .COMPLETED) =
      some (.ret c f true) ∧ c ≠ [])
    ∧ wait_runs .all [5] none (fun _ => .owned) (fun _ => 0)
        (fun _ _ => .COMPLETED) 4 0 = .ret [5] [] true :=
  ⟨((c4_wait_policy [5] none .owned 0 (fun _ => .FAILED)).1 (by decide) rfl).1
      ⟨5, by decide, by decide⟩,
   ((c4_wait_policy [5] none .owned 0 (fun _ => .COMPLETED)).1 (by decide) rfl).2.2.1
      ⟨5, by decide, by decide⟩,
   (c4_wait_policy [5] none .owned 0 (fun _ => .COMPLETED)).2.2 .all
      (fun _ => .owned) (fun _ => 0) (fun _ _ => .COMPLETED) 3 0 (.ret [5] [] true)
      (((c4_wait_policy [5] none .owned 0 (fun _ => .COMPLETED)).1 (by decide) rfl).2.1
        (by decide) (fun i _ => rfl))⟩

/-- C10: `wait_runs` on the empty id list is asymmetric in the policy:
`policy='all'` returns `{completed=[], failed=[], policy_met=True}` on the
first poll, while `policy='any'` raises on the first poll (its
`len(failed) == len(run_ids)` check is `0 == 0`). -/
theorem c10_wait_empty (timeout : Option Int) (own : ℕ → AssertOutcome)
    (elapsedAt : ℕ → Int) (snapAt : ℕ → ℕ → RunStatus) (fuel i : ℕ)
    (hown : own i ≠ .lostLease)
    (hto : timeoutTriggered timeout (elapsedAt i) = false) :
    waitPoll .all [] timeout (own i) (elapsedAt i) (snapAt i) =
      some (.ret [] [] true)
    ∧ waitPoll .any [] timeout (own i) (elapsedAt i) (snapAt i) =
      some (.allFailedErr [])
    ∧ wait_runs .all [] timeout own elapsedAt snapAt (fuel + 1) i = .ret [] [] true
    ∧ wait_runs .any [] timeout own elapsedAt snapAt (fuel + 1) i = .allFailedErr [] := by
  have hb : (own i == AssertOutcome.lostLease) = false := by
    cases h : own i <;> simp_all
  have h1 : waitPoll .all [] timeout (own i) (elapsedAt i) (snapAt i) =
      some (.ret [] [] true) := by
    simp [waitPoll, hb, hto, waitRows, completedIds, failedIds]
  have h2 : waitPoll .any [] timeout (own i) (elapsedAt i) (snapAt i) =
      some (.allFailedErr []) := by
    simp [waitPoll, hb, hto, waitRows, completedIds, failedIds]
  exact ⟨h1, h2, by simp [wait_runs, h1], by simp [wait_runs, h2]⟩

/-- Witness for C10: with no timeout and intact ownership, the first poll
on the empty list returns under `'all'` and raises under `'any'`. -/
theorem c10_wait_empty_witness :
    wait_runs .all [] none (fun _ => .owned) (fun _ => 0)
      (fun _ _ => .RUNNING) 1 0 = .ret [] [] true
    ∧ wait_runs .any [] none (fun _ => .owned) (fun _ => 0)
      (fun _ _ => .RUNNING) 1 0 = .allFailedErr [] :=
  ⟨(c10_wait_empty none (fun _ => .owned) (fun _ => 0) (fun _ _ => .RUNNING) 0 0
      (by decide) rfl).2.2.1,
   (c10_wait_empty none (fun _ => .owned) (fun _ => 0) (fun _ _ => .RUNNING) 0 0
      (by decide) rfl).2.2.2⟩

/-! ## C3 lease manager: `renew_lease` / `periodic_lease_renewal`
(src/core/worker.py lines 105-145 and 197-226)

`renew_lease` is a conditional UPDATE; `periodic_lease_renewal` loops,
calling it on an ephemeral session per tick, and — on a zero-row renewal —
logs and plainly `return`s.  Its only caller-visible effect is stopping;
it holds no reference to the execution task and sends it no signal.  The
`SysState`/`sysStep` model runs the renewal loop, an interfering reclaim
by another worker, and the executor's actions (ownership-guarded DB
writes and plain in-between blueprint work) over one shared trace. -/

/-- The renewal UPDATE's `WHERE` clause:
`id = :run_id AND status = RUNNING AND locked_by = :worker_id`. -/
def renewGuard (w : String) (run_id : ℕ) (r : Run) : Bool :=
  r.id == run_id && r.status == .RUNNING && r.locked_by == some w

/-- `renew_lease`: `UPDATE runs SET lease_expires_at = NOW() + lease
WHERE` the renewal guard, `RETURNING id`.  Returns whether a row matched
(`True if lease renewed, False if worker lost ownership`) and the updated
table. -/
def renew_lease (w : String) (run_id : ℕ) (lease_seconds now : Int)
    (tbl : List Run) : Bool × List Run :=
  (tbl.any (renewGuard w run_id),
   tbl.map (fun r =>
     if renewGuard w run_id r then { r with lease_expires_at := some (now + lease_seconds) }
     else r))

/-- How the renewal loop ends: cancelled by the executor's `finally`
(trace exhausted), or returned after a failed renewal. -/
inductive RenewalExit
  | cancelled
  | lostOwnership
deriving DecidableEq, Repr

/-- `periodic_lease_renewal` over a trace of ticks (each sees the table as
of that tick, on a fresh session).  Returns the number of renewal attempts
performed and the exit reason; on the first failed renewal it stops —
ticks after it are never consumed. -/
def periodic_lease_renewal (w : String) (run_id : ℕ) (lease_seconds : Int) :
    List (Int × List Run) → ℕ × RenewalExit
  | [] => (0, .cancelled)
  | (now, tbl) :: rest =>
    if (renew_lease w run_id lease_seconds now tbl).1 then
      let r := periodic_lease_renewal w run_id lease_seconds rest
      (r.1 + 1, r.2)
    else (1, .lostOwnership)

/-- What the executing blueprint does between suspension points: plain
computation, or an ownership-guarded database write (event emission /
step boundary, each of which calls `assert_ownership` first). -/
inductive ExecAction
  | plainWork
  | guardedWrite
deriving DecidableEq, Repr

/-- One scheduler event of the combined system: a renewal tick, a reclaim
of the run by another worker (its `claim_run` UPDATE), or one executor
action. -/
inductive SysEv
  | renewTick (now : Int)
  | reclaim (w' : String) (now : Int)
  | act (a : ExecAction) (now : Int)
deriving DecidableEq, Repr

/-- Combined state: the `runs` table, whether the renewal loop is still
running, how much work the executor has done, and whether the executor
has aborted (unwound on `LostLeaseError`). -/
structure SysState where
  table : List Run
  renewAlive : Bool
  workDone : ℕ
  aborted : Bool
deriving DecidableEq, Repr

/-- One step of the combined system, from the code: a tick runs
`renew_lease` and — per `periodic_lease_renewal` — on failure merely stops
the loop (no other effect, in particular none on the executor); a reclaim
applies another worker's claim transition to the row; an executor action
either does plain work or asserts ownership first and aborts when it
raises. -/
def sysStep (w : String) (run_id : ℕ) (lease_seconds : Int)
    (st : SysState) (e : SysEv) : SysState :=
  match e with
  | .renewTick now =>
    if st.renewAlive then
      let r := renew_lease w run_id lease_seconds now st.table
      { st with table := r.2, renewAlive := r.1 }
    else st
  | .reclaim w' now =>
    { st with table := st.table.map (fun r =>
        if r.id == run_id then transitionRow now w' lease_seconds r else r) }
  | .act a now =>
    if st.aborted then st
    else
      match a with
      | .plainWork => { st with workDone := st.workDone + 1 }
      | .guardedWrite =>
        match assert_ownership (some w) run_id now st.table with
        | .lostLease => { st with aborted := true }
        | _ => { st with workDone := st.workDone + 1 }

/-- Run the combined system over a trace. -/
def sysRun (w : String) (run_id : ℕ) (lease_seconds : Int)
    (st : SysState) (tr : List SysEv) : SysState :=
  tr.foldl (sysStep w run_id lease_seconds) st

theorem assertGuard_eq_false_of_renewGuard {w : String} {rid : ℕ} {now : Int}
    {r : Run} (h : renewGuard w rid r = false) :
    assertGuard w rid now r = false := by
  cases h1 : (r.id == rid) <;> cases h2 : (r.status == RunStatus.RUNNING) <;>
    cases h3 : (r.locked_by == some w) <;>
    simp_all [assertGuard, renewGuard]

theorem finalizeGuard_eq_false_of_renewGuard {w : String} {rid : ℕ} {now : Int}
    {r : Run} (h : renewGuard w rid r = false) :
    (r.id == rid && finalizeGuard (some w) now r) = false := by
  cases h1 : (r.id == rid) <;> cases h2 : (r.status == RunStatus.RUNNING) <;>
    cases h3 : (r.locked_by == some w) <;>
    simp_all [finalizeGuard, renewGuard]

theorem periodic_stops (w : String) (rid : ℕ) (ls : Int) :
    ∀ (pre : List (Int × List Run)) (failNow : Int) (failTbl : List Run)
      (rest : List (Int × List Run)),
      (∀ p ∈ pre, (renew_lease w rid ls p.1 p.2).1 = true) →
      (renew_lease w rid ls failNow failTbl).1 = false →
      periodic_lease_renewal w rid ls (pre ++ (failNow, failTbl) :: rest) =
        (pre.length + 1, .lostOwnership) := by
  intro pre
  induction pre with
  | nil =>
    intro failNow failTbl rest _ hfail
    simp [periodic_lease_renewal, hfail]
  | cons hd tl ih =>
    intro failNow failTbl rest hpre hfail
    obtain ⟨hn, ht⟩ := hd
    have hhd : (renew_lease w rid ls hn ht).1 = true := hpre (hn, ht) (by simp)
    have htl := ih failNow failTbl rest (fun p hp => hpre p (by simp [hp])) hfail
    simp [periodic_lease_renewal, hhd, htl]

/-- A RUNNING run owned by worker `"w1"` with lease expiring at 10. -/
def rClaimed : Run :=
  { rReady with
    id := 1
    status := .RUNNING
    locked_by := some "w1"
    locked_at := some 0
    lease_expires_at := some 10
    started_at := some 0 }

/-- Initial combined state for the C5 counterexample. -/
def c5InitState : SysState :=
  { table := [rClaimed], renewAlive := true, workDone := 0, aborted := false }

/-- C5 counterexample: worker `"w2"` reclaims the run at t=15 (the lease
expired at 10); `"w1"`'s renewal tick at t=20 affects zero rows, so the
renewal manager stops (renewAlive becomes false) — and nothing else
happens: the executor is not signalled, is not aborted, and at t=21 it
performs further (plain) work on the run.  This refutes the claim that a
zero-row renewal tick makes the lease manager signal the executor, which
aborts so that the worker does no further work on the run. -/
theorem c5_lease_renewal_counterexample :
    (sysRun "w1" 1 60 c5InitState [.reclaim "w2" 15, .renewTick 20]).renewAlive = false
    ∧ (sysRun "w1" 1 60 c5InitState [.reclaim "w2" 15, .renewTick 20]).workDone = 0
    ∧ (sysRun "w1" 1 60 c5InitState
        [.reclaim "w2" 15, .renewTick 20, .act .plainWork 21]).workDone = 1
    ∧ (sysRun "w1" 1 60 c5InitState
        [.reclaim "w2" 15, .renewTick 20, .act .plainWork 21]).aborted = false := by
  decide

/-- C5 amended: lease renewal is a CAS on `lease_expires_at` guarded by
`(id, status=RUNNING, locked_by=worker)`; a zero-row renewal writes
nothing; `periodic_lease_renewal` stops at the first failed tick without
consuming later ticks and without signalling the executor; the executor
may still do unguarded work, but a lost renewal guard implies every
subsequent ownership assertion on that table fails, so the executor
aborts at its next ownership-guarded operation (last conjunct, beyond the
amendment: a lost renewal guard likewise makes both terminal CAS paths of
`execute_run` affect zero rows and write nothing). -/
theorem c5_lease_renewal (w : String) (rid : ℕ) (ls now now' : Int)
    (r : Run) (tbl : List Run) (st : SysState) (outs err : Doc) :
    (renewGuard w rid r =
      (r.id == rid && r.status == .RUNNING && r.locked_by == some w))
    ∧ ((renew_lease w rid ls now tbl).1 = false →
        (renew_lease w rid ls now tbl).2 = tbl)
    ∧ ((renew_lease w rid ls now tbl).1 = false → w ≠ "" →
        assert_ownership (some w) rid now' tbl = .lostLease)
    ∧ (∀ (pre : List (Int × List Run)) (failNow : Int) (failTbl : List Run)
        (rest : List (Int × List Run)),
        (∀ p ∈ pre, (renew_lease w rid ls p.1 p.2).1 = true) →
        (renew_lease w rid ls failNow failTbl).1 = false →
        periodic_lease_renewal w rid ls (pre ++ (failNow, failTbl) :: rest) =
          (pre.length + 1, .lostOwnership))
    ∧ (st.renewAlive = true → (renew_lease w rid ls now st.table).1 = false →
        sysStep w rid ls st (.renewTick now) = { st with renewAlive := false })
    ∧ (st.aborted = false → w ≠ "" → st.table.any (renewGuard w rid) = false →
        sysStep w rid ls st (.act .guardedWrite now) = { st with aborted := true })
    ∧ (tbl.any (renewGuard w rid) = false →
        (finalize_success rid (some w) now' outs tbl).2 = false
        ∧ (finalize_success rid (some w) now' outs tbl).1 = tbl
        ∧ (finalize_failure rid (some w) now' err tbl).2 = false
        ∧ (finalize_failure rid (some w) now' err tbl).1 = tbl) := by
  have hzero : ∀ (tb : List Run), (renew_lease w rid ls now tb).1 = false →
      (renew_lease w rid ls now tb).2 = tb := by
    intro tb h
    simp only [renew_lease, List.any_eq_false] at h
    exact (List.map_congr_left fun x hx => by simp [h x hx]).trans (List.map_id tb)
  have hlost : ∀ (tb : List Run) (n : Int), tb.any (renewGuard w rid) = false → w ≠ "" →
      assert_ownership (some w) rid n tb = .lostLease := by
    intro tb n h hw
    have h' : ∀ x ∈ tb, ¬renewGuard w rid x = true := List.any_eq_false.mp h
    have hag : tb.any (assertGuard w rid n) = false :=
      List.any_eq_false.mpr fun x hx => by
        simp [assertGuard_eq_false_of_renewGuard
          (Bool.eq_false_iff.mpr (h' x hx))]
    simp [assert_ownership, hw, hag]
  refine ⟨rfl, hzero tbl, fun h hw => hlost tbl now' h hw,
    periodic_stops w rid ls, fun ha h => ?_, fun hab hw h => ?_, fun h => ?_⟩
  · simp [sysStep, ha, h, hzero st.table h]
  · simp [sysStep, hab, hlost st.table now h hw]
  · have hg : ∀ x ∈ tbl, (x.id == rid && finalizeGuard (some w) now' x) = false :=
      fun x hx => finalizeGuard_eq_false_of_renewGuard
        (Bool.eq_false_iff.mpr (List.any_eq_false.mp h x hx))
    have h2 : (tbl.any fun x => x.id == rid && finalizeGuard (some w) now' x) = false :=
      List.any_eq_false.mpr fun x hx => by simp [hg x hx]
    refine ⟨h2, ?_, h2, ?_⟩
    · exact (List.map_congr_left fun x hx => by
        simp [casComplete, hg x hx]).trans (List.map_id tbl)
    · exact (List.map_congr_left fun x hx => by
        simp [casFail, hg x hx]).trans (List.map_id tbl)

/-- The table after `"w2"` reclaimed run 1 at t=15 (lease 60). -/
def tblLost : List Run := [transitionRow 15 "w2" 60 rClaimed]

/-- Witness for C5: on the reclaimed table, `"w1"`'s renewal matches zero
rows and writes nothing, its ownership assertion fails, one pre-tick
succeeds then renewal stops with the rest of the trace unconsumed, the
executor's next guarded write aborts, and both terminal CAS paths leave
the table unchanged. -/
theorem c5_lease_renewal_witness :
    (renew_lease "w1" 1 60 20 tblLost).2 = tblLost
    ∧ assert_ownership (some "w1") 1 21 tblLost = .lostLease
    ∧ periodic_lease_renewal "w1" 1 60
        ([(5, [rClaimed])] ++ (20, tblLost) :: [(30, tblLost)]) = (2, .lostOwnership)
    ∧ sysStep "w1" 1 60 ⟨tblLost, false, 0, false⟩ (.act .guardedWrite 21) =
        ⟨tblLost, false, 0, true⟩
    ∧ (finalize_success 1 (some "w1") 21 "o" tblLost).1 = tblLost
    ∧ (finalize_failure 1 (some "w1") 21 "e" tblLost).1 = tblLost :=
  ⟨(c5_lease_renewal "w1" 1 60 20 21 rClaimed tblLost c5InitState "o" "e").2.1
     (by decide),
   (c5_lease_renewal "w1" 1 60 20 21 rClaimed tblLost c5InitState "o" "e").2.2.1
     (by decide) (by decide),
   (c5_lease_renewal "w1" 1 60 20 21 rClaimed tblLost c5InitState "o" "e").2.2.2.1
     [(5, [rClaimed])] 20 tblLost [(30, tblLost)]
     (fun p hp => by
       have : p = (5, [rClaimed]) := by simpa using hp
       rw [this]; decide)
     (by decide),
   (c5_lease_renewal "w1" 1 60 21 21 rClaimed tblLost
     ⟨tblLost, false, 0, false⟩ "o" "e").2.2.2.2.2.1 rfl (by decide) (by decide),
   ((c5_lease_renewal "w1" 1 60 20 21 rClaimed tblLost c5InitState "o" "e").2.2.2.2.2.2
     (by decide)).2.1,
   ((c5_lease_renewal "w1" 1 60 20 21 rClaimed tblLost c5InitState "o" "e").2.2.2.2.2.2
     (by decide)).2.2.2⟩

/-! ## C5 step recorder: `RunContext.step` creation retry loop
(src/core/blueprints/runner.py lines 162-191)

`idx` is assigned as `COUNT` of the run's existing steps; the insert is
protected by the `UNIQUE(run_id, idx)` constraint; on `IntegrityError`
the session rolls back and retries, up to `max_retries = 3` attempts in
total (`for attempt in range(max_retries)`), the last failure re-raising.
`views a` is the run's steps table visible at attempt `a` (it can change
between attempts when a concurrent creator commits — the race the retry
defends against); an attempt's insert violates the unique constraint
exactly when its computed `idx` is already taken in that view. -/

/-- A row of the `steps` table (`class Step` in src/core/models.py). -/
structure Step where
  id : ℕ
  run_id : ℕ
  name : String
  idx : ℕ
  kind : String
  status : StepStatus
  inputs : Option Doc
  outputs : Option Doc
  error : Option Doc
  logs_artifact_id : Option ℕ
  created_at : Int
  started_at : Option Int
  completed_at : Option Int
deriving DecidableEq, Repr

/-- `self.db.query(models.Step).filter(run_id == ...).count()`. -/
def countSteps (tbl : List Step) (run_id : ℕ) : ℕ :=
  (tbl.filter (fun s => s.run_id == run_id)).length

/-- Whether `(run_id, idx)` is already present — the `UNIQUE(run_id, idx)`
constraint fires on inserting exactly when this holds. -/
def idxTaken (tbl : List Step) (run_id idx : ℕ) : Bool :=
  tbl.any (fun s => s.run_id == run_id && s.idx == idx)

/-- The step row built by `RunContext.step`:
`Step(id=uuid4(), run_id, name, idx, kind, status=CREATED, created_at=now)`. -/
def newStep (run_id newId : ℕ) (name kind : String) (now : Int) (idx : ℕ) : Step :=
  { id := newId, run_id := run_id, name := name, idx := idx, kind := kind,
    status := .CREATED, inputs := none, outputs := none, error := none,
    logs_artifact_id := none, created_at := now, started_at := none,
    completed_at := none }

/-- One creation attempt: compute `idx := COUNT`, insert; `none` models
the `IntegrityError` (the computed idx is already taken), after which the
session state is rolled back. -/
def stepInsertAttempt (tbl : List Step) (run_id newId : ℕ) (name kind : String)
    (now : Int) : Option (Step × List Step) :=
  let cnt := countSteps tbl run_id
  if idxTaken tbl run_id cnt then none
  else some (newStep run_id newId name kind now cnt,
    tbl ++ [newStep run_id newId name kind now cnt])

/-- The `for attempt in range(3)` retry loop: try at most three attempts,
surfacing the `IntegrityError` (`.error ()`) when the third also
conflicts. -/
def createStep (views : ℕ → List Step) (run_id newId : ℕ) (name kind : String)
    (now : Int) : Except Unit (Step × List Step) :=
  match stepInsertAttempt (views 0) run_id newId name kind now with
  | some r => .ok r
  | none =>
    match stepInsertAttempt (views 1) run_id newId name kind now with
    | some r => .ok r
    | none =>
      match stepInsertAttempt (views 2) run_id newId name kind now with
      | some r => .ok r
      | none => .error ()

/-- k sequential step creations within one run (the single-threaded
blueprint case: every attempt sees the committed table, no interference),
each drawing a fresh step id from the list. -/
def createStepSeq (run_id : ℕ) (name kind : String) (now : Int) :
    List Step → List ℕ → List Step
  | tbl, [] => tbl
  | tbl, newId :: rest =>
    match stepInsertAttempt tbl run_id newId name kind now with
    | some r => createStepSeq run_id name kind now r.2 rest
    | none => tbl

/-- The run's step indexes form the contiguous prefix `{0, …, count−1}`. -/
def contiguousIdx (tbl : List Step) (run_id : ℕ) : Prop :=
  ∀ i : ℕ, idxTaken tbl run_id i = true ↔ i < countSteps tbl run_id

theorem stepInsertAttempt_of_contiguous {tbl : List Step} {rid : ℕ}
    (hc : contiguousIdx tbl rid) (nid : ℕ) (nm kd : String) (now : Int) :
    stepInsertAttempt tbl rid nid nm kd now =
      some (newStep rid nid nm kd now (countSteps tbl rid),
        tbl ++ [newStep rid nid nm kd now (countSteps tbl rid)]) := by
  have hfree : idxTaken tbl rid (countSteps tbl rid) = false := by
    by_cases h : idxTaken tbl rid (countSteps tbl rid) = true
    · exact absurd ((hc _).mp h) (lt_irrefl _)
    · exact Bool.eq_false_iff.mpr h
  simp [stepInsertAttempt, hfree]

theorem contiguous_insert {tbl : List Step} {rid : ℕ}
    (hc : contiguousIdx tbl rid) (nid : ℕ) (nm kd : String) (now : Int) :
    contiguousIdx (tbl ++ [newStep rid nid nm kd now (countSteps tbl rid)]) rid
    ∧ countSteps (tbl ++ [newStep rid nid nm kd now (countSteps tbl rid)]) rid =
        countSteps tbl rid + 1 := by
  have hcount : countSteps (tbl ++ [newStep rid nid nm kd now (countSteps tbl rid)]) rid =
      countSteps tbl rid + 1 := by
    simp [countSteps, List.filter_append, newStep]
  refine ⟨fun i => ?_, hcount⟩
  rw [hcount]
  constructor
  · intro h
    simp only [idxTaken, List.any_append, List.any_cons, List.any_nil,
      Bool.or_false, Bool.or_eq_true] at h
    rcases h with h' | h'
    · exact Nat.lt_succ_of_lt ((hc i).mp h')
    · have : countSteps tbl rid = i := by simpa [newStep] using h'
      omega
  · intro h
    rcases Nat.lt_succ_iff_lt_or_eq.mp h with h' | h'
    · have := (hc i).mpr h'
      simp only [idxTaken, List.any_append] at *
      simp [this]
    · simp [idxTaken, List.any_append, newStep, h']

theorem createStepSeq_spec (rid : ℕ) (nm kd : String) (now : Int) :
    ∀ (ids : List ℕ) (tbl : List Step), contiguousIdx tbl rid →
      contiguousIdx (createStepSeq rid nm kd now tbl ids) rid
      ∧ countSteps (createStepSeq rid nm kd now tbl ids) rid =
          countSteps tbl rid + ids.length := by
  intro ids
  induction ids with
  | nil => exact fun tbl hc => ⟨hc, by simp [createStepSeq]⟩
  | cons nid rest ih =>
    intro tbl hc
    have hins := stepInsertAttempt_of_contiguous hc nid nm kd now
    have hpres := contiguous_insert hc nid nm kd now
    have hrec := ih _ hpres.1
    constructor
    · simpa [createStepSeq, hins] using hrec.1
    · have : countSteps (createStepSeq rid nm kd now tbl (nid :: rest)) rid =
          countSteps (tbl ++ [newStep rid nid nm kd now (countSteps tbl rid)]) rid
            + rest.length := by
        simpa [createStepSeq, hins] using hrec.2
      rw [this, hpres.2]
      simp [Nat.add_assoc, Nat.add_comm 1 rest.length]

/-- C7: the step context manager assigns each new step
`idx = COUNT(steps of the run)`: from a table whose indexes for the run
form the prefix `{0,…,k−1}` the first attempt succeeds with `idx = k` and
the prefix grows to `{0,…,k}`; after k successful sequential creations
from an empty table the index set is exactly `{0,…,k−1}`; on a
unique-violation the loop retries with a recomputed count and, when all
three attempts conflict, surfaces the error. -/
theorem c7_step_idx (rid nid : ℕ) (nm kd : String) (now : Int)
    (views : ℕ → List Step) :
    (∀ tbl : List Step, contiguousIdx tbl rid →
      createStep (fun _ => tbl) rid nid nm kd now =
        .ok (newStep rid nid nm kd now (countSteps tbl rid),
          tbl ++ [newStep rid nid nm kd now (countSteps tbl rid)]))
    ∧ (∀ tbl : List Step, contiguousIdx tbl rid →
        contiguousIdx (tbl ++ [newStep rid nid nm kd now (countSteps tbl rid)]) rid
        ∧ countSteps (tbl ++ [newStep rid nid nm kd now (countSteps tbl rid)]) rid =
            countSteps tbl rid + 1)
    ∧ (∀ ids : List ℕ,
        countSteps (createStepSeq rid nm kd now [] ids) rid = ids.length
        ∧ ∀ i : ℕ, idxTaken (createStepSeq rid nm kd now [] ids) rid i = true ↔
            i < ids.length)
    ∧ (idxTaken (views 0) rid (countSteps (views 0) rid) = true →
        idxTaken (views 1) rid (countSteps (views 1) rid) = false →
        createStep views rid nid nm kd now =
          .ok (newStep rid nid nm kd now (countSteps (views 1) rid),
            views 1 ++ [newStep rid nid nm kd now (countSteps (views 1) rid)]))
    ∧ (idxTaken (views 0) rid (countSteps (views 0) rid) = true →
        idxTaken (views 1) rid (countSteps (views 1) rid) = true →
        idxTaken (views 2) rid (countSteps (views 2) rid) = true →
        createStep views rid nid nm kd now = .error ()) := by
  have hempty : contiguousIdx ([] : List Step) rid := by
    intro i
    simp [idxTaken, countSteps]
  refine ⟨fun tbl hc => ?_, fun tbl hc => contiguous_insert hc nid nm kd now,
    fun ids => ?_, fun h0 h1 => ?_, fun h0 h1 h2 => ?_⟩
  · simp [createStep, stepInsertAttempt_of_contiguous hc nid nm kd now]
  · have h := createStepSeq_spec rid nm kd now ids [] hempty
    have hz : countSteps ([] : List Step) rid = 0 := rfl
    rw [hz, Nat.zero_add] at h
    exact ⟨h.2, fun i => h.2 ▸ h.1 i⟩
  · simp [createStep, stepInsertAttempt, h0, h1]
  · simp [createStep, stepInsertAttempt, h0, h1, h2]

/-- Witness for C7: two creations from the empty table give indexes
`{0, 1}` (idx 0 and 1 taken, 2 not), and a view conflicting on all three
attempts surfaces the error.  All hypotheses are discharged concretely. -/
theorem c7_step_idx_witness :
    (countSteps (createStepSeq 1 "s" "action_task" 50 [] [101, 102]) 1 = 2
      ∧ (idxTaken (createStepSeq 1 "s" "action_task" 50 [] [101, 102]) 1 0 = true)
      ∧ (idxTaken (createStepSeq 1 "s" "action_task" 50 [] [101, 102]) 1 2 = false))
    ∧ createStep (fun _ => [newStep 1 99 "s" "action_task" 40 1]) 1 103 "s"
        "action_task" 50 = .error () := by
  have h := (c7_step_idx 1 103 "s" "action_task" 50
    (fun _ => [newStep 1 99 "s" "action_task" 40 1])).2.2.1 [101, 102]
  have herr := (c7_step_idx 1 103 "s" "action_task" 50
    (fun _ => [newStep 1 99 "s" "action_task" 40 1])).2.2.2.2
    (by decide) (by decide) (by decide)
  refine ⟨⟨h.1, (h.2 0).mpr (by decide), ?_⟩, herr⟩
  by_cases hb : idxTaken (createStepSeq 1 "s" "action_task" 50 [] [101, 102]) 1 2 = true
  · have h2 := (h.2 2).mp hb
    norm_num at h2
  · exact Bool.eq_false_iff.mpr hb

/-! ## C8 advisory lock service: `hash_lock_key`
(src/core/advisory_locks.py lines 14-30)

`hash_lock_key` takes the first 8 bytes of `hashlib.sha256(key.encode())`,
reads them as a big-endian unsigned integer, and maps to a signed 64-bit
value by subtracting 2⁶⁴ when ≥ 2⁶³.  `hashlib.sha256` is the Python
standard library; it is modelled here by a full FIPS 180-4 SHA-256 over
byte lists (each byte a `Nat < 256`), with 32-bit words as `Nat` reduced
`% 2^32`. -/

/-- Right rotation of a 32-bit word. -/
def rotr32 (n x : ℕ) : ℕ :=
  ((x >>> n) ||| (x <<< (32 - n))) % 2 ^ 32

/-- SHA-256 Σ₀. -/
def bigSigma0 (x : ℕ) : ℕ := rotr32 2 x ^^^ rotr32 13 x ^^^ rotr32 22 x

/-- SHA-256 Σ₁. -/
def bigSigma1 (x : ℕ) : ℕ := rotr32 6 x ^^^ rotr32 11 x ^^^ rotr32 25 x

/-- SHA-256 σ₀. -/
def smallSigma0 (x : ℕ) : ℕ := rotr32 7 x ^^^ rotr32 18 x ^^^ (x >>> 3)

/-- SHA-256 σ₁. -/
def smallSigma1 (x : ℕ) : ℕ := rotr32 17 x ^^^ rotr32 19 x ^^^ (x >>> 10)

/-- SHA-256 Ch(x,y,z) = (x ∧ y) ⊕ (¬x ∧ z), with ¬ on 32 bits. -/
def sha256Ch (x y z : ℕ) : ℕ := (x &&& y) ^^^ (((2 ^ 32 - 1) ^^^ x) &&& z)

/-- SHA-256 Maj(x,y,z). -/
def sha256Maj (x y z : ℕ) : ℕ := (x &&& y) ^^^ (x &&& z) ^^^ (y &&& z)

/-- The 64 SHA-256 round constants. -/
def sha256K : List ℕ :=
  [1116352408, 1899447441, 3049323471, 3921009573, 961987163, 1508970993,
   2453635748, 2870763221, 3624381080, 310598401, 607225278, 1426881987,
   1925078388, 2162078206, 2614888103, 3248222580, 3835390401, 4022224774,
   264347078, 604807628, 770255983, 1249150122, 1555081692, 1996064986,
   2554220882, 2821834349, 2952996808, 3210313671, 3336571891, 3584528711,
   113926993, 338241895, 666307205, 773529912, 1294757372, 1396182291,
   1695183700, 1986661051, 2177026350, 2456956037, 2730485921, 2820302411,
   3259730800, 3345764771, 3516065817, 3600352804, 4094571909, 275423344,
   430227734, 506948616, 659060556, 883997877, 958139571, 1322822218,
   1537002063, 1747873779, 1955562222, 2024104815, 2227730452, 2361852424,
   2428436474, 2756734187, 3204031479, 3329325298]

/-- The initial SHA-256 hash state. -/
def sha256H0 : List ℕ :=
  [1779033703, 3144134277, 1013904242, 2773480762,
   1359893119, 2600822924, 528734635, 1541459225]

/-- The `n` big-endian bytes of `v`. -/
def beBytes (n v : ℕ) : List ℕ :=
  (List.range n).map (fun i => (v >>> (8 * (n - 1 - i))) % 256)

/-- FIPS 180-4 padding: append `0x80`, zero bytes to 56 mod 64, then the
8-byte big-endian bit length. -/
def padMessage (msg : List ℕ) : List ℕ :=
  let padZeros := (119 - msg.length % 64) % 64
  msg ++ [0x80] ++ List.replicate padZeros 0 ++ beBytes 8 (8 * msg.length)

/-- Group bytes into 32-bit big-endian words. -/
def bytesToWords : List ℕ → List ℕ
  | b0 :: b1 :: b2 :: b3 :: rest =>
    (((b0 * 256 + b1) * 256 + b2) * 256 + b3) :: bytesToWords rest
  | _ => []

/-- Split a padded byte string into its `n` 16-word blocks. -/
def toBlocksN : ℕ → List ℕ → List (List ℕ)
  | 0, _ => []
  | n + 1, bytes => bytesToWords (bytes.take 64) :: toBlocksN n (bytes.drop 64)

/-- Extend a 16-word block by `n` message-schedule words:
`W[t] = σ₁(W[t−2]) + W[t−7] + σ₀(W[t−15]) + W[t−16] (mod 2³²)`. -/
def extendSchedule (ws : List ℕ) : ℕ → List ℕ
  | 0 => ws
  | n + 1 =>
    let w := extendSchedule ws n
    w ++ [(smallSigma1 (w.getD (w.length - 2) 0) + w.getD (w.length - 7) 0 +
           smallSigma0 (w.getD (w.length - 15) 0) + w.getD (w.length - 16) 0) % 2 ^ 32]

/-- One SHA-256 round on the working variables, for schedule word `w` and
round constant `k`. -/
def sha256Round (st : ℕ × ℕ × ℕ × ℕ × ℕ × ℕ × ℕ × ℕ) (wk : ℕ × ℕ) :
    ℕ × ℕ × ℕ × ℕ × ℕ × ℕ × ℕ × ℕ :=
  match st, wk with
  | (a, b, c, d, e, f, g, h), (w, k) =>
    let t1 := (h + bigSigma1 e + sha256Ch e f g + k + w) % 2 ^ 32
    let t2 := (bigSigma0 a + sha256Maj a b c) % 2 ^ 32
    ((t1 + t2) % 2 ^ 32, a, b, c, (d + t1) % 2 ^ 32, e, f, g)

/-- Compress one 16-word block into the hash state. -/
def compressBlock (hs : List ℕ) (block : List ℕ) : List ℕ :=
  let ws := extendSchedule block 48
  match (ws.zip sha256K).foldl sha256Round
    (hs.getD 0 0, hs.getD 1 0, hs.getD 2 0, hs.getD 3 0,
     hs.getD 4 0, hs.getD 5 0, hs.getD 6 0, hs.getD 7 0) with
  | (a, b, c, d, e, f, g, h) =>
    [(hs.getD 0 0 + a) % 2 ^ 32, (hs.getD 1 0 + b) % 2 ^ 32,
     (hs.getD 2 0 + c) % 2 ^ 32, (hs.getD 3 0 + d) % 2 ^ 32,
     (hs.getD 4 0 + e) % 2 ^ 32, (hs.getD 5 0 + f) % 2 ^ 32,
     (hs.getD 6 0 + g) % 2 ^ 32, (hs.getD 7 0 + h) % 2 ^ 32]

/-- The 4 big-endian bytes of a 32-bit word. -/
def wordToBytes (w : ℕ) : List ℕ :=
  [(w >>> 24) % 256, (w >>> 16) % 256, (w >>> 8) % 256, w % 256]

/-- `hashlib.sha256(msg).digest()` over a byte list. -/
def sha256Bytes (msg : List ℕ) : List ℕ :=
  let padded := padMessage msg
  ((toBlocksN (padded.length / 64) padded).foldl compressBlock sha256H0).flatMap
    wordToBytes

/-- `int.from_bytes(bytes, byteorder='big', signed=False)`. -/
def beBytesToNat (bs : List ℕ) : ℕ :=
  bs.foldl (fun a b => a * 256 + b) 0

/-- `hash_lock_key` on the encoded byte string: big-endian value of the
first 8 digest bytes, minus 2⁶⁴ when ≥ 2⁶³. -/
def hashLockBytes (msgBytes : List ℕ) : Int :=
  let u := beBytesToNat ((sha256Bytes msgBytes).take 8)
  if u ≥ 2 ^ 63 then (u : Int) - 2 ^ 64 else (u : Int)

/-- The UTF-8 bytes of a string (`key.encode()`). -/
def strBytes (s : String) : List ℕ :=
  s.toUTF8.toList.map UInt8.toNat

/-- `hash_lock_key` (src/core/advisory_locks.py). -/
def hash_lock_key (key : String) : Int :=
  hashLockBytes (strBytes key)

example : sha256Bytes [97, 98, 99] =
    [186, 120, 22, 191, 143, 1, 207, 234,
     65, 65, 64, 222, 93, 174, 34, 35,
     176, 3, 97, 163, 150, 23, 122, 156,
     180, 16, 255, 97, 242, 0, 21, 173] := by decide

example : sha256Bytes [] =
    [227, 176, 196, 66, 152, 252, 28, 20,
     154, 251, 244, 200, 153, 111, 185, 36,
     39, 174, 65, 228, 100, 155, 147, 76,
     164, 149, 153, 27, 120, 82, 184, 85] := by decide

theorem sha256Bytes_lt (msg : List ℕ) : ∀ b ∈ sha256Bytes msg, b < 256 := by
  intro b hb
  simp only [sha256Bytes, List.mem_flatMap] at hb
  obtain ⟨w, _, hw⟩ := hb
  simp only [wordToBytes, List.mem_cons, List.not_mem_nil, or_false] at hw
  rcases hw with h | h | h | h <;> subst h <;> exact Nat.mod_lt _ (by norm_num)

theorem beBytesToNat_bound :
    ∀ (bs : List ℕ), (∀ b ∈ bs, b < 256) →
      ∀ a : ℕ, List.foldl (fun a b => a * 256 + b) a bs < (a + 1) * 256 ^ bs.length := by
  intro bs
  induction bs with
  | nil =>
    intro _ a
    simp [Nat.lt_succ_self a]
  | cons b tl ih =>
    intro h a
    have hb : b < 256 := h b (by simp)
    have htl := ih (fun x hx => h x (by simp [hx])) (a * 256 + b)
    calc List.foldl (fun a b => a * 256 + b) (a * 256 + b) tl
        < (a * 256 + b + 1) * 256 ^ tl.length := htl
      _ ≤ ((a + 1) * 256) * 256 ^ tl.length :=
          Nat.mul_le_mul_right _ (by omega)
      _ = (a + 1) * 256 ^ (b :: tl).length := by
          simp [List.length_cons, pow_succ]
          ring

theorem hashLockBytes_range (msgBytes : List ℕ) :
    -(2 ^ 63) ≤ hashLockBytes msgBytes ∧ hashLockBytes msgBytes < 2 ^ 63 := by
  have hlt : ∀ b ∈ (sha256Bytes msgBytes).take 8, b < 256 :=
    fun b hb => sha256Bytes_lt msgBytes b (List.mem_of_mem_take hb)
  have hlen : ((sha256Bytes msgBytes).take 8).length ≤ 8 := by
    simp [List.length_take]
  have hu : beBytesToNat ((sha256Bytes msgBytes).take 8) < 2 ^ 64 := by
    have h1 := beBytesToNat_bound _ hlt 0
    have h2 : (256 : ℕ) ^ ((sha256Bytes msgBytes).take 8).length ≤ 256 ^ 8 :=
      Nat.pow_le_pow_right (by norm_num) hlen
    calc beBytesToNat ((sha256Bytes msgBytes).take 8)
        < (0 + 1) * 256 ^ ((sha256Bytes msgBytes).take 8).length := h1
      _ ≤ 256 ^ 8 := by simpa using h2
      _ = 2 ^ 64 := by norm_num
  unfold hashLockBytes
  by_cases h : beBytesToNat ((sha256Bytes msgBytes).take 8) ≥ 2 ^ 63
  · simp only [h, if_pos]
    constructor
    · have : (2 ^ 63 : ℤ) ≤ (beBytesToNat ((sha256Bytes msgBytes).take 8) : ℤ) := by
        exact_mod_cast h
      omega
    · have : ((beBytesToNat ((sha256Bytes msgBytes).take 8)) : ℤ) < 2 ^ 64 := by
        exact_mod_cast hu
      omega
  · simp only [h, if_neg, not_false_eq_true]
    push_neg at h
    constructor
    · calc (-(2 ^ 63) : ℤ) ≤ 0 := by norm_num
        _ ≤ _ := Int.natCast_nonneg _
    · exact_mod_cast h

/-- C8: `hash_lock_key(key)` is the big-endian unsigned value of the first
8 bytes of SHA-256 of the key's encoded bytes, mapped to signed 64-bit by
subtracting 2⁶⁴ when ≥ 2⁶³; the result always lies in `[-2⁶³, 2⁶³)`; and
the function is deterministic. -/
theorem c8_hash_lock_key (key : String) :
    (hash_lock_key key =
      (if beBytesToNat ((sha256Bytes (strBytes key)).take 8) ≥ 2 ^ 63 then
        (beBytesToNat ((sha256Bytes (strBytes key)).take 8) : Int) - 2 ^ 64
       else (beBytesToNat ((sha256Bytes (strBytes key)).take 8) : Int)))
    ∧ -(2 ^ 63) ≤ hash_lock_key key ∧ hash_lock_key key < 2 ^ 63
    ∧ hash_lock_key key = hash_lock_key key :=
  ⟨rfl, (hashLockBytes_range (strBytes key)).1,
   (hashLockBytes_range (strBytes key)).2, rfl⟩

end XynSeed
